import Mathlib

/-!
Shallow embedding of the ai-agent-on-aws incident-remediation system.

Each definition mirrors one Python function of the repository:

* Risk Assessor            - lambda-functions/agent-remediation/lambda_function.py
* Remediation Agent        - lambda-functions/agent-remediation/lambda_function.py
* Approval Processor       - lambda-functions/process-approval/lambda_function.py
* Remediation Executor     - itops-multiagent-system/lambda-functions/execute-remediation/lambda_function.py
* Resolution Verifier      - itops-multiagent-system/lambda-functions/verify-resolution/lambda_function.py
* Circuit Breaker          - itops-multiagent-system/lambda-functions/mcp-monitoring/lambda_function.py
* Root Cause Agent         - lambda-functions/agent-rootcause/lambda_function.py

External effects (DynamoDB reads/writes, AWS API calls, the Bedrock reasoner)
are modelled by explicit state passing and by oracle parameters: a
remediation action's runtime success is a function parameter, the reasoner's
replies are an indexed family of responses, and the approval store is a map
from identifiers to records.
-/

/-- Per-action risk level, the string field risk of a plan action.
A missing risk field behaves exactly like the value medium at every
use site of the source (the safety check and the auto-execute filter compare
against a single literal, the assessor defaults to medium), so it is
modelled as the value medium. -/
inductive Risk
  | low
  | medium
  | high
deriving DecidableEq, Repr

/-- One action of a remediation plan.  The reversible field is kept as an
Option because the source reads it with two different defaults:
the executor safety check uses get with default False while the
risk assessor uses get with default True. -/
structure RemAction where
  action : String
  risk : Risk
  reversible : Option Bool
  critical : Bool
deriving DecidableEq, Repr

/-- A remediation plan: the two ordered action lists that the risk assessor
and the executor traverse.  Preventive measures, duration and success
criteria do not influence any verified behaviour and are omitted. -/
structure RemediationPlan where
  immediate_actions : List RemAction
  corrective_actions : List RemAction
deriving DecidableEq, Repr

/-- The combined action list, as built by both the assessor and the
executor safety check: immediate actions followed by corrective actions. -/
def allActions (plan : RemediationPlan) : List RemAction :=
  plan.immediate_actions ++ plan.corrective_actions

/-- RemediationAgent._assess_risk: high when some action has risk high or
some action has an explicit reversible = False (the source default for a
missing reversible is True here); else medium when some action has risk
medium; else low. -/
def assess_risk (plan : RemediationPlan) : Risk :=
  let all_actions := allActions plan
  if all_actions.any (fun a => decide (a.risk = Risk.high)) ||
      all_actions.any (fun a => !(a.reversible.getD true)) then
    Risk.high
  else if all_actions.any (fun a => decide (a.risk = Risk.medium)) then
    Risk.medium
  else
    Risk.low

/-- Local lemma: the reversible default used by the risk assessor. -/
theorem getD_true_eq_false_iff (o : Option Bool) : o.getD true = false ↔ o = some false := by
  cases o <;> simp

/-- C3: the Risk Assessor is a pure function of the combined immediate and
corrective action lists: it returns high exactly when some action has risk
high or some action is explicitly non-reversible; otherwise medium exactly
when some action has risk medium; otherwise low.  In particular a single
high-risk or non-reversible action forces the result to high regardless of
the other actions. -/
theorem assess_risk_characterisation (plan : RemediationPlan) :
    (assess_risk plan = Risk.high ↔
      ∃ a ∈ allActions plan, a.risk = Risk.high ∨ a.reversible = some false) ∧
    (assess_risk plan = Risk.medium ↔
      (¬ ∃ a ∈ allActions plan, a.risk = Risk.high ∨ a.reversible = some false) ∧
        ∃ a ∈ allActions plan, a.risk = Risk.medium) ∧
    (assess_risk plan = Risk.low ↔
      (¬ ∃ a ∈ allActions plan, a.risk = Risk.high ∨ a.reversible = some false) ∧
        ¬ ∃ a ∈ allActions plan, a.risk = Risk.medium) := by
  unfold assess_risk
  by_cases hhigh : ∃ a ∈ allActions plan, a.risk = Risk.high ∨ a.reversible = some false
  · have hcond : ((allActions plan).any (fun a => decide (a.risk = Risk.high)) ||
        (allActions plan).any (fun a => !(a.reversible.getD true))) = true := by
      obtain ⟨a, ha, hor⟩ := hhigh
      rcases hor with h | h
      · have h1 : (allActions plan).any (fun a => decide (a.risk = Risk.high)) = true :=
          List.any_eq_true.mpr ⟨a, ha, by simp [h]⟩
        simp [h1]
      · have h2 : (allActions plan).any (fun a => !(a.reversible.getD true)) = true :=
          List.any_eq_true.mpr ⟨a, ha, by simp [h]⟩
        simp [h2]
    simp [hcond, hhigh]
  · have hcond : ((allActions plan).any (fun a => decide (a.risk = Risk.high)) ||
        (allActions plan).any (fun a => !(a.reversible.getD true))) = false := by
      rw [Bool.or_eq_false_iff]
      constructor
      · rw [List.any_eq_false]
        intro a ha
        simp only [decide_eq_true_eq]
        exact fun hr => hhigh ⟨a, ha, Or.inl hr⟩
      · rw [List.any_eq_false]
        intro a ha
        simp only [Bool.not_eq_true']
        rw [getD_true_eq_false_iff]
        exact fun hrev => hhigh ⟨a, ha, Or.inr hrev⟩
    by_cases hmed : ∃ a ∈ allActions plan, a.risk = Risk.medium
    · have hm : (allActions plan).any (fun a => decide (a.risk = Risk.medium)) = true := by
        obtain ⟨a, ha, h⟩ := hmed
        exact List.any_eq_true.mpr ⟨a, ha, by simp [h]⟩
      simp [hcond, hm, hhigh, hmed]
    · have hm : (allActions plan).any (fun a => decide (a.risk = Risk.medium)) = false := by
        rw [List.any_eq_false]
        intro a ha
        simp only [decide_eq_true_eq, Bool.not_eq_true]
        intro hr
        exact hmed ⟨a, ha, hr⟩
      simp [hcond, hm, hhigh, hmed]

/-- Approval lifecycle status, stored in the approval queue record. -/
inductive ApprovalStatus
  | pending
  | approved
  | rejected
deriving DecidableEq, Repr

/-- An approval-queue record, as written by RemediationAgent._queue_for_approval
and updated by ApprovalProcessor._update_approval_status. -/
structure Approval where
  incident_id : String
  status : ApprovalStatus
  risk_level : Risk
  approver : Option String
  approved_at : Option Int
  comments : Option String
deriving DecidableEq, Repr

/-- The approval store: DynamoDB keyed by approval identifier, modelled as a
map from identifiers to records. -/
def ApprovalStore : Type := String → Option Approval

/-- Outcome of ApprovalProcessor.process_approval.  The source returns a dict
with a success flag and a message; the distinct messages become distinct
constructors.  The store write itself is modelled as always succeeding, so
the store-error branch of the source has no counterpart here. -/
inductive ApprovalOutcome
  | decided (new_status : ApprovalStatus)
  | invalidAction
  | notFound
  | alreadyProcessed
deriving DecidableEq, Repr

/-- ApprovalProcessor.process_approval: validate the action string, look the
approval up, reject a second decision on a non-pending record, otherwise
write the decision, approver and timestamp (comments only when supplied).
Returns the outcome together with the updated store. -/
def process_approval (store : ApprovalStore) (approval_id action approver : String)
    (comments : Option String) (now : Int) : ApprovalOutcome × ApprovalStore :=
  if action ≠ "approve" ∧ action ≠ "reject" then
    (ApprovalOutcome.invalidAction, store)
  else
    match store approval_id with
    | none => (ApprovalOutcome.notFound, store)
    | some ap =>
      if ap.status ≠ ApprovalStatus.pending then
        (ApprovalOutcome.alreadyProcessed, store)
      else
        let new_status :=
          if action = "approve" then ApprovalStatus.approved else ApprovalStatus.rejected
        let updated : Approval :=
          { ap with
            status := new_status
            approver := some approver
            approved_at := some now
            comments := match comments with | some c => some c | none => ap.comments }
        (ApprovalOutcome.decided new_status,
          fun i => if i = approval_id then some updated else store i)

/-- C4: approval decisions are strictly one-shot.  A decide call on a
non-existent approval id fails with the not-found outcome and leaves the
store untouched, and a decide call on an approval whose stored status is not
pending fails with the already-processed outcome and leaves every stored
record (decision, approver, timestamps) exactly as it was. -/
theorem process_approval_one_shot (store : ApprovalStore)
    (approval_id action approver : String) (comments : Option String) (now : Int)
    (haction : action = "approve" ∨ action = "reject") :
    (store approval_id = none →
      process_approval store approval_id action approver comments now =
        (ApprovalOutcome.notFound, store)) ∧
    (∀ ap, store approval_id = some ap → ap.status ≠ ApprovalStatus.pending →
      process_approval store approval_id action approver comments now =
        (ApprovalOutcome.alreadyProcessed, store)) := by
  have hvalid : ¬ (action ≠ "approve" ∧ action ≠ "reject") := by
    rcases haction with h | h <;> simp [h]
  constructor
  · intro hnone
    unfold process_approval
    rw [if_neg hvalid, hnone]
  · intro ap hsome hstat
    unfold process_approval
    rw [if_neg hvalid, hsome]
    simp [hstat]

/-- A concrete already-decided approval record used by the C4 witness. -/
def apDecided : Approval :=
  { incident_id := "INC-1", status := ApprovalStatus.approved, risk_level := Risk.high,
    approver := some "alice", approved_at := some 10, comments := none }

/-- A concrete approval store holding exactly the record APPR-1. -/
def storeOne : ApprovalStore :=
  fun i => if i = "APPR-1" then some apDecided else none

/-- Witness for C4: on the concrete store holding the already-approved record
APPR-1, a second approve call returns already-processed and leaves the store
unchanged, and a call on the absent id APPR-2 returns not-found. -/
theorem process_approval_one_shot_witness :
    process_approval storeOne "APPR-1" "approve" "bob" (some "late") 99 =
        (ApprovalOutcome.alreadyProcessed, storeOne) ∧
    process_approval storeOne "APPR-2" "approve" "bob" none 99 =
        (ApprovalOutcome.notFound, storeOne) := by
  constructor
  · exact (process_approval_one_shot storeOne "APPR-1" "approve" "bob" (some "late") 99
      (Or.inl rfl)).2 apDecided rfl (by decide)
  · exact (process_approval_one_shot storeOne "APPR-2" "approve" "bob" none 99
      (Or.inl rfl)).1 rfl

/-- Phase of execution: the executor runs immediate actions first, then
corrective actions. -/
inductive Phase
  | immediate
  | corrective
deriving DecidableEq, Repr

/-- Per-action outcome record built by RemediationExecutor._execute_action.
The output and error strings carry no verified behaviour and are omitted. -/
structure ActionResult where
  action : String
  phase : Phase
  risk : Risk
  success : Bool
deriving DecidableEq, Repr

/-- RemediationExecutor._execute_action.  Whether the underlying AWS call
raises is external behaviour, supplied by the oracle ok; the
function records the oracle verdict as the success flag. -/
def execAction (ok : RemAction → Bool) (a : RemAction) (phase : Phase) : ActionResult :=
  { action := a.action, phase := phase, risk := a.risk, success := ok a }

/-- Overall status of an execution attempt (the status field of the results
dict).  The in-progress placeholder is always overwritten before the
executor returns, so it has no constructor. -/
inductive ExecStatus
  | success
  | partSuccess
  | failed
  | aborted
  | blocked
deriving DecidableEq, Repr

/-- The results dict returned by RemediationExecutor.execute. -/
structure ExecResult where
  status : ExecStatus
  immediate_actions : List ActionResult
  corrective_actions : List ActionResult
  failed_actions : List ActionResult
deriving DecidableEq, Repr

/-- RemediationExecutor._verify_approval: the approval must exist and its
stored status must be exactly approved. -/
def verify_approval (store : ApprovalStore) (approval_id : String) : Bool :=
  match store approval_id with
  | none => false
  | some ap => decide (ap.status = ApprovalStatus.approved)

/-- The executor's approval gate at the top of execute: blocked exactly when
an approval id was supplied and verification fails. -/
def approval_blocked (store : ApprovalStore) (approval_id : Option String) : Bool :=
  match approval_id with
  | some id => !(verify_approval store id)
  | none => false

/-- RemediationExecutor._pre_execution_safety_check over the combined action
lists: safe (true) unless some action has risk high and its reversible flag,
defaulted to False when missing, is false. -/
def pre_execution_safety_check (plan : RemediationPlan) : Bool :=
  !((allActions plan).any
      (fun a => decide (a.risk = Risk.high) && !(a.reversible.getD false)))

/-- The immediate-actions loop of RemediationExecutor.execute: execute each
action in order, collect results and failures, and stop the whole run as
soon as a failing action is flagged critical.  Returns the result list, the
failed list and whether the critical short-circuit fired. -/
def execute_immediate (ok : RemAction → Bool) :
    List RemAction → List ActionResult × List ActionResult × Bool
  | [] => ([], [], false)
  | a :: rest =>
    let r := execAction ok a Phase.immediate
    if r.success then
      let tail := execute_immediate ok rest
      (r :: tail.1, tail.2.1, tail.2.2)
    else if a.critical then
      ([r], [r], true)
    else
      let tail := execute_immediate ok rest
      (r :: tail.1, r :: tail.2.1, tail.2.2)

/-- The corrective-actions loop of RemediationExecutor.execute: every action
runs (no critical short-circuit in this phase); failures are collected in
order. -/
def execute_corrective (ok : RemAction → Bool) (actions : List RemAction) :
    List ActionResult × List ActionResult :=
  let results := actions.map (fun a => execAction ok a Phase.corrective)
  (results, results.filter (fun r => !r.success))

/-- RemediationExecutor.execute: approval gate, then the pre-execution safety
check, then the two phases, then the overall status classification by the
failure count against the number of executed actions. -/
def RemediationExecutor.execute (ok : RemAction → Bool) (store : ApprovalStore)
    (approval_id : Option String) (plan : RemediationPlan) : ExecResult :=
  if approval_blocked store approval_id then
    { status := ExecStatus.blocked, immediate_actions := [], corrective_actions := [],
      failed_actions := [] }
  else if !(pre_execution_safety_check plan) then
    { status := ExecStatus.aborted, immediate_actions := [], corrective_actions := [],
      failed_actions := [] }
  else
    let im := execute_immediate ok plan.immediate_actions
    if im.2.2 then
      { status := ExecStatus.failed, immediate_actions := im.1, corrective_actions := [],
        failed_actions := im.2.1 }
    else
      let co := execute_corrective ok plan.corrective_actions
      let failed_all := im.2.1 ++ co.2
      { status :=
          if failed_all.length = 0 then ExecStatus.success
          else if failed_all.length < im.1.length + co.1.length then ExecStatus.partSuccess
          else ExecStatus.failed,
        immediate_actions := im.1, corrective_actions := co.1,
        failed_actions := failed_all }

/-- C1: for every plan containing at least one action with risk high whose
reversible flag (defaulted to False when missing) is false, and whenever the
approval gate does not block the call, the pre-execution safety check rejects
the whole plan: the executor returns status aborted with every executed and
failed action list empty, regardless of the other actions. -/
theorem safety_check_aborts (ok : RemAction → Bool) (store : ApprovalStore)
    (approval_id : Option String) (plan : RemediationPlan)
    (happ : approval_blocked store approval_id = false)
    (hbad : ∃ a ∈ allActions plan, a.risk = Risk.high ∧ a.reversible.getD false = false) :
    RemediationExecutor.execute ok store approval_id plan =
      { status := ExecStatus.aborted, immediate_actions := [], corrective_actions := [],
        failed_actions := [] } := by
  have hsafe : pre_execution_safety_check plan = false := by
    obtain ⟨a, ha, hrisk, hrev⟩ := hbad
    unfold pre_execution_safety_check
    rw [Bool.not_eq_false']
    exact List.any_eq_true.mpr ⟨a, ha, by simp [hrisk, hrev]⟩
  simp [RemediationExecutor.execute, happ, hsafe]

/-- A high-risk irreversible action, used by the C1 witness. -/
def c1BadAct : RemAction :=
  { action := "drop-table", risk := Risk.high, reversible := some false, critical := false }

/-- A harmless low-risk action, used by the C1 witness. -/
def c1LowAct : RemAction :=
  { action := "restart-svc", risk := Risk.low, reversible := some true, critical := false }

/-- Witness for C1: a concrete plan mixing a low-risk action with a high-risk
irreversible one is aborted with empty action lists even though every action
would have succeeded. -/
theorem safety_check_aborts_witness :
    RemediationExecutor.execute (fun _ => true) (fun _ => none) none
        { immediate_actions := [c1LowAct], corrective_actions := [c1BadAct] } =
      { status := ExecStatus.aborted, immediate_actions := [], corrective_actions := [],
        failed_actions := [] } :=
  safety_check_aborts _ _ _ _ rfl ⟨c1BadAct, by decide, rfl, rfl⟩

/-- The immediate-phase loop on a prefix of succeeding actions followed by a
failing critical action: the loop executes the prefix and the critical
action, records the single failure, and signals the short-circuit. -/
theorem execute_immediate_critical (ok : RemAction → Bool) (a : RemAction)
    (post : List RemAction) (ha : ok a = false) (hc : a.critical = true) :
    ∀ pre : List RemAction, (∀ b ∈ pre, ok b = true) →
      execute_immediate ok (pre ++ a :: post) =
        (pre.map (fun b => execAction ok b Phase.immediate) ++
            [execAction ok a Phase.immediate],
          [execAction ok a Phase.immediate], true)
  | [], _ => by
      simp only [List.nil_append, List.map_nil]
      unfold execute_immediate
      simp [execAction, ha, hc]
  | b :: pre, hpre => by
      have hb : ok b = true := hpre b (List.mem_cons_self _ _)
      have ih := execute_immediate_critical ok a post ha hc pre
        (fun x hx => hpre x (List.mem_cons_of_mem _ hx))
      simp only [List.cons_append, List.map_cons]
      unfold execute_immediate
      simp [execAction, hb, ih]

/-- C2: when the approval gate and the safety check both pass and the
immediate-action list is a block of succeeding actions followed by a failing
action flagged critical, the executor stops at that action: the immediate
results are exactly the prefix plus the critical failure, no later immediate
action and no corrective action executes, the failure list holds exactly the
critical action, and the overall status is failed. -/
theorem critical_failure_short_circuit (ok : RemAction → Bool) (store : ApprovalStore)
    (approval_id : Option String) (plan : RemediationPlan)
    (pre post : List RemAction) (a : RemAction)
    (hplan : plan.immediate_actions = pre ++ a :: post)
    (hpre : ∀ b ∈ pre, ok b = true) (ha : ok a = false) (hc : a.critical = true)
    (happ : approval_blocked store approval_id = false)
    (hsafe : pre_execution_safety_check plan = true) :
    RemediationExecutor.execute ok store approval_id plan =
      { status := ExecStatus.failed,
        immediate_actions :=
          pre.map (fun b => execAction ok b Phase.immediate) ++
            [execAction ok a Phase.immediate],
        corrective_actions := [],
        failed_actions := [execAction ok a Phase.immediate] } := by
  have him : execute_immediate ok plan.immediate_actions =
      (pre.map (fun b => execAction ok b Phase.immediate) ++
          [execAction ok a Phase.immediate],
        [execAction ok a Phase.immediate], true) := by
    rw [hplan]
    exact execute_immediate_critical ok a post ha hc pre hpre
  simp [RemediationExecutor.execute, happ, hsafe, him]

/-- Concrete critical action A that fails under the C2 witness oracle. -/
def c2A : RemAction :=
  { action := "A", risk := Risk.low, reversible := some true, critical := true }

/-- Concrete action B, listed after A. -/
def c2B : RemAction :=
  { action := "B", risk := Risk.low, reversible := some true, critical := false }

/-- Concrete action C, listed after B. -/
def c2C : RemAction :=
  { action := "C", risk := Risk.low, reversible := some true, critical := false }

/-- The C2 witness oracle: every action succeeds except the one named A. -/
def c2Ok : RemAction → Bool := fun b => decide (b.action ≠ "A")

/-- Witness for C2: with immediate actions A(critical, fails), B, C and a
corrective action, only A executes, the status is failed, and the failure
list holds exactly A. -/
theorem critical_failure_short_circuit_witness :
    RemediationExecutor.execute c2Ok (fun _ => none) none
        { immediate_actions := [c2A, c2B, c2C], corrective_actions := [c2C] } =
      { status := ExecStatus.failed,
        immediate_actions :=
          ([] : List RemAction).map (fun b => execAction c2Ok b Phase.immediate) ++
            [execAction c2Ok c2A Phase.immediate],
        corrective_actions := [],
        failed_actions := [execAction c2Ok c2A Phase.immediate] } :=
  critical_failure_short_circuit c2Ok (fun _ => none) none _ [] [c2B, c2C] c2A rfl
    (by simp) (by decide) rfl rfl (by decide)

/-- The immediate-phase loop when no failing action is critical: every action
executes in order and the failures are exactly the failing results, with no
short-circuit. -/
theorem execute_immediate_no_critical (ok : RemAction → Bool) :
    ∀ acts : List RemAction, (∀ a ∈ acts, ok a = false → a.critical = false) →
      execute_immediate ok acts =
        (acts.map (fun b => execAction ok b Phase.immediate),
          (acts.filter (fun a => !(ok a))).map (fun b => execAction ok b Phase.immediate),
          false)
  | [], _ => rfl
  | a :: acts, h => by
      have ih := execute_immediate_no_critical ok acts
        (fun x hx => h x (List.mem_cons_of_mem _ hx))
      unfold execute_immediate
      by_cases hok : ok a = true
      · simp [execAction, hok, ih, List.filter_cons]
      · have hok' : ok a = false := Bool.not_eq_true _ ▸ Bool.eq_false_iff.mpr hok
        have hcrit : a.critical = false := h a (List.mem_cons_self _ _) hok'
        simp [execAction, hok', hcrit, ih, List.filter_cons]

/-- The corrective-phase loop, rewritten with the failures as the failing
actions mapped through the per-action executor. -/
theorem execute_corrective_eq (ok : RemAction → Bool) (acts : List RemAction) :
    execute_corrective ok acts =
      (acts.map (fun b => execAction ok b Phase.corrective),
        (acts.filter (fun a => !(ok a))).map (fun b => execAction ok b Phase.corrective)) := by
  simp only [execute_corrective]
  rw [List.filter_map]
  rfl

/-- C9: when the approval gate and the safety check pass and no failing
immediate action is critical, the executor runs both phases in full (each
result list is as long as its action list), its failure list is exactly the
failing actions of both phases in order, and the overall status is success
exactly when nothing failed, partial success exactly when some but not all
executed actions failed, and failed exactly when every executed action of a
non-empty plan failed. -/
theorem overall_status_classification (ok : RemAction → Bool) (store : ApprovalStore)
    (approval_id : Option String) (plan : RemediationPlan)
    (happ : approval_blocked store approval_id = false)
    (hsafe : pre_execution_safety_check plan = true)
    (hnc : ∀ a ∈ plan.immediate_actions, ok a = false → a.critical = false) :
    ∃ r : ExecResult,
      RemediationExecutor.execute ok store approval_id plan = r ∧
      r.immediate_actions.length = plan.immediate_actions.length ∧
      r.corrective_actions.length = plan.corrective_actions.length ∧
      r.failed_actions =
        (plan.immediate_actions.filter (fun a => !(ok a))).map
            (fun b => execAction ok b Phase.immediate) ++
          (plan.corrective_actions.filter (fun a => !(ok a))).map
            (fun b => execAction ok b Phase.corrective) ∧
      r.failed_actions.length = ((allActions plan).filter (fun a => !(ok a))).length ∧
      (r.status = ExecStatus.success ↔ r.failed_actions.length = 0) ∧
      (r.status = ExecStatus.partSuccess ↔
        0 < r.failed_actions.length ∧
          r.failed_actions.length <
            plan.immediate_actions.length + plan.corrective_actions.length) ∧
      (r.status = ExecStatus.failed ↔
        0 < r.failed_actions.length ∧
          r.failed_actions.length =
            plan.immediate_actions.length + plan.corrective_actions.length) := by
  have him := execute_immediate_no_critical ok plan.immediate_actions hnc
  have hco := execute_corrective_eq ok plan.corrective_actions
  have hexec : RemediationExecutor.execute ok store approval_id plan =
      { status :=
          if ((plan.immediate_actions.filter (fun a => !(ok a))).map
                  (fun b => execAction ok b Phase.immediate) ++
                (plan.corrective_actions.filter (fun a => !(ok a))).map
                  (fun b => execAction ok b Phase.corrective)).length = 0 then
            ExecStatus.success
          else if ((plan.immediate_actions.filter (fun a => !(ok a))).map
                  (fun b => execAction ok b Phase.immediate) ++
                (plan.corrective_actions.filter (fun a => !(ok a))).map
                  (fun b => execAction ok b Phase.corrective)).length <
              (plan.immediate_actions.map (fun b => execAction ok b Phase.immediate)).length +
                (plan.corrective_actions.map (fun b => execAction ok b Phase.corrective)).length then
            ExecStatus.partSuccess
          else ExecStatus.failed,
        immediate_actions :=
          plan.immediate_actions.map (fun b => execAction ok b Phase.immediate),
        corrective_actions :=
          plan.corrective_actions.map (fun b => execAction ok b Phase.corrective),
        failed_actions :=
          (plan.immediate_actions.filter (fun a => !(ok a))).map
              (fun b => execAction ok b Phase.immediate) ++
            (plan.corrective_actions.filter (fun a => !(ok a))).map
              (fun b => execAction ok b Phase.corrective) } := by
    simp only [RemediationExecutor.execute, happ, hsafe, him, hco, Bool.not_true,
      Bool.false_eq_true, if_false, Bool.true_eq_false]
  have hFI : (plan.immediate_actions.filter (fun a => !(ok a))).length ≤
      plan.immediate_actions.length := List.length_filter_le _ _
  have hFC : (plan.corrective_actions.filter (fun a => !(ok a))).length ≤
      plan.corrective_actions.length := List.length_filter_le _ _
  refine ⟨_, hexec, by simp, by simp, rfl, ?_, ?_, ?_, ?_⟩
  · dsimp only
    simp [allActions, List.filter_append]
  · dsimp only
    simp only [List.length_append, List.length_map]
    split_ifs with h1 h2
    · simp [h1]
    · simp [h1]
    · simp [h1]
  · dsimp only
    simp only [List.length_append, List.length_map]
    split_ifs with h1 h2
    · simp [h1]
    · exact iff_of_true rfl ⟨Nat.pos_of_ne_zero h1, h2⟩
    · refine iff_of_false (by simp) ?_
      rintro ⟨-, hlt⟩
      exact h2 hlt
  · dsimp only
    simp only [List.length_append, List.length_map]
    split_ifs with h1 h2
    · simp [h1]
    · refine iff_of_false (by simp) ?_
      rintro ⟨-, hEq⟩
      omega
    · exact iff_of_true rfl ⟨Nat.pos_of_ne_zero h1, by omega⟩

/-- Succeeding action for the C9 witness. -/
def c9A : RemAction :=
  { action := "scale-up", risk := Risk.low, reversible := some true, critical := false }

/-- Failing non-critical action for the C9 witness. -/
def c9B : RemAction :=
  { action := "B", risk := Risk.low, reversible := some true, critical := false }

/-- The C9 witness oracle: every action succeeds except the one named B. -/
def c9Ok : RemAction → Bool := fun a => decide (a.action ≠ "B")

/-- The C9 witness plan: immediate actions A(succeeds), B(fails, non-critical). -/
def c9Plan : RemediationPlan :=
  { immediate_actions := [c9A, c9B], corrective_actions := [] }

/-- Witness for C9: on the concrete plan with A succeeding and B failing
non-critically, the overall status is partial success and the failure list
holds exactly B. -/
theorem overall_status_classification_witness :
    (RemediationExecutor.execute c9Ok (fun _ => none) none c9Plan).status =
        ExecStatus.partSuccess ∧
    (RemediationExecutor.execute c9Ok (fun _ => none) none c9Plan).failed_actions =
      [execAction c9Ok c9B Phase.immediate] := by
  obtain ⟨r, hr, h1, h2, h3, h4, h5, h6, h7⟩ :=
    overall_status_classification c9Ok (fun _ => none) none c9Plan rfl (by decide) (by decide)
  have hfail : r.failed_actions = [execAction c9Ok c9B Phase.immediate] := by
    rw [h3]
    rfl
  have hstat : r.status = ExecStatus.partSuccess := by
    apply h6.mpr
    rw [hfail]
    decide
  rw [hr]
  exact ⟨hstat, hfail⟩

/-- Per-action record returned by RemediationAgent._execute_action.  The
source simulates execution and always reports success. -/
structure AgentActionResult where
  action : String
  success : Bool
deriving DecidableEq, Repr

/-- RemediationAgent._execute_action: simulated execution, always succeeds. -/
def agent_execute_action (a : RemAction) : AgentActionResult :=
  { action := a.action, success := true }

/-- The execution summary returned by RemediationAgent._execute_plan. -/
structure AgentExecResult where
  executed_actions : Nat
  results : List AgentActionResult
  status : String
deriving DecidableEq, Repr

/-- RemediationAgent._execute_plan: walk both action lists in order and
execute only the actions whose risk equals low, skipping every other action
without recording it; status is completed when every executed action
succeeded, else partial. -/
def execute_plan (plan : RemediationPlan) : AgentExecResult :=
  let results :=
    (plan.immediate_actions.filter (fun a => decide (a.risk = Risk.low))).map
        agent_execute_action ++
      (plan.corrective_actions.filter (fun a => decide (a.risk = Risk.low))).map
        agent_execute_action
  { executed_actions := results.length
    results := results
    status := if results.all (fun r => r.success) then "completed" else "partial" }

/-- Outcome of RemediationAgent.remediate. -/
inductive RemediateOutcome
  | pending_approval (risk_level : Risk)
  | executed (risk_level : Risk) (execution_result : AgentExecResult)
deriving DecidableEq, Repr

/-- RemediationAgent.remediate on an already-generated plan: assess the risk;
queue for approval when it is high, otherwise auto-execute the plan.  The
assessor only ever returns low, medium or high, so the source's critical
branch is unreachable. -/
def remediate (plan : RemediationPlan) : RemediateOutcome :=
  let risk_level := assess_risk plan
  if risk_level = Risk.high then
    RemediateOutcome.pending_approval risk_level
  else
    RemediateOutcome.executed risk_level (execute_plan plan)

/-- C10: on the auto-execute path (assessed risk not high, so no approval is
created), the agent executes exactly the actions whose risk equals low:
the recorded results are the low-risk actions of both lists in order, the
executed count is the number of low-risk actions, the reported status is
completed (nothing is ever counted as failed), and whenever the plan holds a
medium-risk action the executed count is strictly below the total action
count — the medium-risk actions are silently skipped. -/
theorem auto_execute_skips_medium (plan : RemediationPlan)
    (hrisk : assess_risk plan ≠ Risk.high) :
    remediate plan = RemediateOutcome.executed (assess_risk plan) (execute_plan plan) ∧
    (execute_plan plan).results =
      ((plan.immediate_actions.filter (fun a => decide (a.risk = Risk.low))).map
          agent_execute_action ++
        (plan.corrective_actions.filter (fun a => decide (a.risk = Risk.low))).map
          agent_execute_action) ∧
    (execute_plan plan).executed_actions =
      ((allActions plan).filter (fun a => decide (a.risk = Risk.low))).length ∧
    (execute_plan plan).status = "completed" ∧
    ((∃ a ∈ allActions plan, a.risk = Risk.medium) →
      (execute_plan plan).executed_actions < (allActions plan).length) := by
  refine ⟨by simp [remediate, hrisk], rfl, ?_, ?_, ?_⟩
  · simp [execute_plan, allActions, List.filter_append]
  · have hall : (((plan.immediate_actions.filter (fun a => decide (a.risk = Risk.low))).map
        agent_execute_action ++
          (plan.corrective_actions.filter (fun a => decide (a.risk = Risk.low))).map
            agent_execute_action).all (fun r => r.success)) = true := by
      rw [List.all_eq_true]
      intro r hr
      rcases List.mem_append.mp hr with h | h <;>
        obtain ⟨a, -, rfl⟩ := List.mem_map.mp h <;> rfl
    simp [execute_plan, hall]
  · rintro ⟨a, ha, hmed⟩
    have hlt : ((allActions plan).filter (fun a => decide (a.risk = Risk.low))).length <
        (allActions plan).length :=
      List.length_filter_lt_length_iff_exists.mpr ⟨a, ha, by simp [hmed]⟩
    calc (execute_plan plan).executed_actions
        = ((allActions plan).filter (fun a => decide (a.risk = Risk.low))).length := by
          simp [execute_plan, allActions, List.filter_append]
      _ < (allActions plan).length := hlt

/-- Low-risk action of the C10 witness plan. -/
def c10Low : RemAction :=
  { action := "clear-cache", risk := Risk.low, reversible := some true, critical := false }

/-- Medium-risk action of the C10 witness plan. -/
def c10Med : RemAction :=
  { action := "resize-db", risk := Risk.medium, reversible := some true, critical := false }

/-- The C10 witness plan: one low-risk and one medium-risk immediate action,
assessed medium overall, hence auto-executed. -/
def c10Plan : RemediationPlan :=
  { immediate_actions := [c10Low, c10Med], corrective_actions := [] }

/-- Witness for C10: the concrete medium-risk plan is auto-executed with
status completed, yet only its single low-risk action ran — the medium-risk
action was skipped. -/
theorem auto_execute_skips_medium_witness :
    remediate c10Plan = RemediateOutcome.executed Risk.medium (execute_plan c10Plan) ∧
    (execute_plan c10Plan).executed_actions = 1 ∧
    (execute_plan c10Plan).status = "completed" ∧
    (execute_plan c10Plan).executed_actions < (allActions c10Plan).length := by
  obtain ⟨h1, h2, h3, h4, h5⟩ := auto_execute_skips_medium c10Plan (by decide)
  have hm : assess_risk c10Plan = Risk.medium := by decide
  refine ⟨?_, ?_, h4, h5 ⟨c10Med, by decide, rfl⟩⟩
  · rw [h1, hm]
  · rw [h3]
    decide

/-- Circuit breaker state kind as stored per service name. -/
inductive CBStateKind
  | closed
  | opened
deriving DecidableEq, Repr

/-- The per-dependency circuit breaker record read from the state table.
A missing item or missing attribute reads as CLOSED with zero counters, so
the record written by record_success (which stores no last-failure
attribute) reads back with last_failure_time zero. -/
structure CBState where
  state : CBStateKind
  failure_count : Nat
  last_failure_time : Int
deriving DecidableEq, Repr

/-- Circuit breaker configuration: per-dependency threshold and timeout,
with the source defaults of 5 failures and 60 seconds. -/
structure CircuitBreaker where
  failure_threshold : Nat := 5
  timeout : Int := 60
deriving DecidableEq, Repr

/-- CircuitBreaker.record_success: overwrite the record with CLOSED and a
zero failure count (the stored item carries no last-failure attribute, which
reads back as zero). -/
def CircuitBreaker.record_success (_cb : CircuitBreaker) : CBState :=
  { state := CBStateKind.closed, failure_count := 0, last_failure_time := 0 }

/-- CircuitBreaker.record_failure: increment the failure count, open the
circuit once the count reaches the threshold, and stamp the failure time. -/
def CircuitBreaker.record_failure (cb : CircuitBreaker) (now : Int) (s : CBState) : CBState :=
  let failure_count := s.failure_count + 1
  { state := if failure_count ≥ cb.failure_threshold then CBStateKind.opened
      else CBStateKind.closed,
    failure_count := failure_count,
    last_failure_time := now }

/-- CircuitBreaker.is_open: when the stored state is OPEN, the call is
blocked unless strictly more than the timeout has elapsed since the last
failure; a CLOSED record never blocks. -/
def CircuitBreaker.is_open (cb : CircuitBreaker) (now : Int) (s : CBState) : Bool :=
  match s.state with
  | CBStateKind.opened => if now - s.last_failure_time > cb.timeout then false else true
  | CBStateKind.closed => false

/-- The default-configured breaker, state OPEN since time 0 with the
threshold-many failures recorded. -/
def cbOpenAtZero : CBState :=
  { state := CBStateKind.opened, failure_count := 5, last_failure_time := 0 }

/-- Counterexample to C5: at the exact moment the default 60-second timeout
has elapsed (now = 60, last failure at 0), is_open still returns true, so
is_open is not equivalent to the claimed condition that the elapsed time is
strictly less than the configured timeout. -/
theorem is_open_boundary_counterexample :
    ¬ (({} : CircuitBreaker).is_open 60 cbOpenAtZero = true ↔
        (cbOpenAtZero.state = CBStateKind.opened ∧
          (60 : Int) - cbOpenAtZero.last_failure_time < ({} : CircuitBreaker).timeout)) := by
  decide

/-- C5 amended: record_success resets the failure count to 0 and the state
to CLOSED; record_failure increments the count, opens the circuit exactly
when the new count reaches the threshold, and stamps the failure time;
is_open returns true exactly when the state is OPEN and the elapsed time
since the last failure is at most the configured timeout — it returns false
(half-open) only once strictly more than the timeout has elapsed, without
requiring an explicit success. -/
theorem circuit_breaker_contract (cb : CircuitBreaker) (now : Int) (s : CBState) :
    (cb.record_success.failure_count = 0 ∧ cb.record_success.state = CBStateKind.closed) ∧
    ((cb.record_failure now s).failure_count = s.failure_count + 1 ∧
      ((cb.record_failure now s).state = CBStateKind.opened ↔
        cb.failure_threshold ≤ s.failure_count + 1) ∧
      (cb.record_failure now s).last_failure_time = now) ∧
    (cb.is_open now s = true ↔
      (s.state = CBStateKind.opened ∧ now - s.last_failure_time ≤ cb.timeout)) := by
  refine ⟨⟨rfl, rfl⟩, ⟨rfl, ?_, rfl⟩, ?_⟩
  · simp only [CircuitBreaker.record_failure]
    split_ifs with h
    · simpa using h
    · simpa using h
  · unfold CircuitBreaker.is_open
    cases s.state with
    | closed => simp
    | opened =>
      split_ifs with h
      · simp only [Bool.false_eq_true, false_iff]
        rintro ⟨-, hle⟩
        omega
      · simpa using by omega

/-- The verification result computed by ResolutionVerifier.verify_resolution:
aggregate confidence percentage and the verified flag. -/
structure VerificationResult where
  confidence : ℚ
  verified : Bool
deriving DecidableEq, Repr

/-- The list of check outcomes aggregated by verify_resolution: the metrics,
error-log and service-health checks always run; the success-criteria check is
appended exactly when a remediation plan was supplied.  The outcome of each
individual check is external observation, passed in as a boolean. -/
def verification_checks (metrics logsOk health : Bool) (criteria : Option Bool) : List Bool :=
  [metrics, logsOk, health] ++ (match criteria with | some cv => [cv] | none => [])

/-- The aggregation step of ResolutionVerifier.verify_resolution: confidence
is passed checks over performed checks times 100, and verified is the
comparison of that confidence against 75. -/
def verify_aggregate (metrics logsOk health : Bool) (criteria : Option Bool) :
    VerificationResult :=
  let all_checks := verification_checks metrics logsOk health criteria
  let passed_checks := all_checks.count true
  let total_checks := all_checks.length
  let confidence : ℚ := ((passed_checks : ℚ) / (total_checks : ℚ)) * 100
  { confidence := confidence, verified := decide ((75 : ℚ) ≤ confidence) }

/-- C7: for every combination of check outcomes, the confidence equals the
number of passed checks over the number of performed checks times 100, the
number of performed checks is 4 with a remediation plan and 3 without, the
confidence always lies in the interval from 0 to 100, and the verified flag
is true exactly when the confidence is at least 75. -/
theorem verification_confidence_spec (m l h : Bool) (c : Option Bool) :
    (verify_aggregate m l h c).confidence =
      ((verification_checks m l h c).count true : ℚ) /
        ((verification_checks m l h c).length : ℚ) * 100 ∧
    (verification_checks m l h c).length = (if c.isSome then 4 else 3) ∧
    0 ≤ (verify_aggregate m l h c).confidence ∧
    (verify_aggregate m l h c).confidence ≤ 100 ∧
    ((verify_aggregate m l h c).verified = true ↔
      (75 : ℚ) ≤ (verify_aggregate m l h c).confidence) := by
  cases m <;> cases l <;> cases h <;> rcases c with _ | cv <;> try cases cv
  all_goals
    simp only [verify_aggregate, verification_checks]
    norm_num

/-- RemediationExecutor._update_incident: the incident status written after
execution is resolved when the execution status is success and in_progress
otherwise. -/
def executor_incident_status (s : ExecStatus) : String :=
  if s = ExecStatus.success then "resolved" else "in_progress"

/-- ResolutionVerifier._update_incident: the incident status written after
verification is resolved when the verification is verified and monitoring
otherwise. -/
def verifier_incident_status (vr : VerificationResult) : String :=
  if vr.verified then "resolved" else "monitoring"

/-- The single low-risk succeeding action of the C6 counterexample plan. -/
def c6Act : RemAction :=
  { action := "restart", risk := Risk.low, reversible := some true, critical := false }

/-- The C6 counterexample plan. -/
def c6Plan : RemediationPlan :=
  { immediate_actions := [c6Act], corrective_actions := [] }

/-- Counterexample to C6: after a concrete execution completes successfully,
the executor writes incident status resolved — not verifying — so the
incident is marked resolved directly from execution success, with no
verification confidence involved. -/
theorem incident_not_verifying_counterexample :
    executor_incident_status
        (RemediationExecutor.execute (fun _ => true) (fun _ => none) none c6Plan).status =
      "resolved" ∧
    executor_incident_status
        (RemediationExecutor.execute (fun _ => true) (fun _ => none) none c6Plan).status ≠
      "verifying" := by
  decide

/-- C6 amended: the executor's post-execution incident update never writes
the status verifying; it writes resolved exactly when the execution status
is success (so an incident can be marked resolved without any verification)
and in_progress otherwise.  The verification step, when it runs, writes
resolved exactly when its confidence is at least 75 and monitoring
otherwise, so verification never silently closes an incident. -/
theorem incident_status_after_execution (s : ExecStatus) (m l h : Bool) (c : Option Bool) :
    executor_incident_status s ≠ "verifying" ∧
    (executor_incident_status s = "resolved" ↔ s = ExecStatus.success) ∧
    (executor_incident_status s = "in_progress" ↔ s ≠ ExecStatus.success) ∧
    (verifier_incident_status (verify_aggregate m l h c) = "resolved" ↔
      (75 : ℚ) ≤ (verify_aggregate m l h c).confidence) ∧
    (verifier_incident_status (verify_aggregate m l h c) = "monitoring" ↔
      (verify_aggregate m l h c).confidence < 75) := by
  cases s <;> cases m <;> cases l <;> cases h <;> rcases c with _ | cv <;> try cases cv
  all_goals
    simp only [executor_incident_status, verifier_incident_status, verify_aggregate,
      verification_checks]
  all_goals try norm_num
  all_goals decide

/-- The action menu of the Root Cause Agent's ReAct loop. -/
inductive AgentActionType
  | get_cpu_metrics
  | get_error_logs
  | check_service_health
  | get_memory_metrics
  | conclude
deriving DecidableEq, Repr

/-- A parsed action decision: a tool choice, or conclude with an optional
conclusion text. -/
structure AgentAction where
  type : AgentActionType
  conclusion : Option String
deriving DecidableEq, Repr

/-- One reply of the opaque reasoner to an action-decision prompt: either
text whose embedded JSON parses to an action, or malformed text. -/
inductive ReasonerReply
  | valid (a : AgentAction)
  | malformed
deriving DecidableEq, Repr

/-- RootCauseAgent._parse_action: defensive parsing of the reasoner's reply;
malformed output falls back to the safe default health-check action. -/
def parse_action : ReasonerReply → AgentAction
  | ReasonerReply.valid a => a
  | ReasonerReply.malformed =>
      { type := AgentActionType.check_service_health, conclusion := none }

/-- One entry of the investigation audit log: a thought, an action, or a
tool observation (whose payload carries no verified behaviour). -/
inductive LogEntry
  | thought (content : String)
  | action (a : AgentAction)
  | observation
deriving DecidableEq, Repr

/-- The while loop of RootCauseAgent.investigate: each iteration appends a
thought and a parsed action to the log, breaks with the conclusion when the
action is conclude, and otherwise executes the tool, appends the
observation, and continues until the iteration budget is exhausted.  Returns
the iteration count, the log, and the root cause (none when the bound was
hit).  The thought texts and action replies of each iteration come from the
opaque reasoner, passed as indexed families. -/
def investigate_loop (thoughts : Nat → String) (replies : Nat → ReasonerReply) :
    Nat → Nat → List LogEntry → Nat × List LogEntry × Option String
  | 0, iteration, log => (iteration, log, none)
  | fuel + 1, iteration, log =>
    let iter := iteration + 1
    let log1 := log ++ [LogEntry.thought (thoughts iter)]
    let act := parse_action (replies iter)
    let log2 := log1 ++ [LogEntry.action act]
    if act.type = AgentActionType.conclude then
      (iter, log2, act.conclusion)
    else
      investigate_loop thoughts replies fuel iter (log2 ++ [LogEntry.observation])

/-- One reply of the reasoner to the report prompt: parsed root cause and
confidence, or malformed text. -/
inductive ReportReply
  | valid (root_cause : String) (confidence : String)
  | malformed
deriving DecidableEq, Repr

/-- RootCauseAgent._parse_report: defensive parsing with the low-confidence
fallback report. -/
def parse_report : ReportReply → String × String
  | ReportReply.valid rc conf => (rc, conf)
  | ReportReply.malformed => ("Unable to determine definitively", "low")

/-- The investigation record assembled at the end of
RootCauseAgent.investigate: iteration count, audit-log length, the loop's
root cause, and the synthesized report. -/
structure InvestigationRecord where
  iterations : Nat
  investigation_steps : Nat
  root_cause : Option String
  reportRootCause : String
  reportConfidence : String
deriving DecidableEq, Repr

/-- RootCauseAgent.investigate: run the bounded ReAct loop (the source
default for max_iterations is 5), then always synthesize a report from the
reasoner's report reply, falling back to the low-confidence report on
malformed output. -/
def investigate (thoughts : Nat → String) (replies : Nat → ReasonerReply)
    (report_reply : ReportReply) (max_iterations : Nat) : InvestigationRecord :=
  let loop_out := investigate_loop thoughts replies max_iterations 0 []
  let rep := parse_report report_reply
  { iterations := loop_out.1
    investigation_steps := loop_out.2.1.length
    root_cause := loop_out.2.2
    reportRootCause := rep.1
    reportConfidence := rep.2 }

/-- The loop never performs more than its remaining fuel in additional
iterations. -/
theorem investigate_loop_le (thoughts : Nat → String) (replies : Nat → ReasonerReply) :
    ∀ (fuel iteration : Nat) (log : List LogEntry),
      (investigate_loop thoughts replies fuel iteration log).1 ≤ iteration + fuel
  | 0, iteration, log => Nat.le_of_eq rfl |>.trans (Nat.le_add_right _ _)
  | fuel + 1, iteration, log => by
    unfold investigate_loop
    dsimp only
    split_ifs with h
    · omega
    · exact (investigate_loop_le thoughts replies fuel (iteration + 1) _).trans (by omega)

/-- With a reasoner whose action replies are always malformed, the parsed
action is always the health-check fallback, never conclude, so the loop runs
its full budget. -/
theorem investigate_loop_malformed (thoughts : Nat → String) :
    ∀ (fuel iteration : Nat) (log : List LogEntry),
      (investigate_loop thoughts (fun _ => ReasonerReply.malformed) fuel iteration log).1 =
        iteration + fuel
  | 0, _, _ => rfl
  | fuel + 1, iteration, log => by
    unfold investigate_loop
    dsimp only [parse_action]
    rw [if_neg (by simp)]
    rw [investigate_loop_malformed thoughts fuel (iteration + 1) _]
    omega

/-- C8: for every incident context and every reasoner behaviour, the
investigation loop performs at most the configured maximum number of
iterations and the engine still produces a complete investigation record
(the definition is total); with a reasoner that consistently returns
malformed output, the parsed action is the safe default health check, the
loop runs exactly its configured bound, and the synthesized fallback report
has confidence low. -/
theorem investigate_bounded (thoughts : Nat → String) (replies : Nat → ReasonerReply)
    (report_reply : ReportReply) (max_iterations : Nat) :
    (investigate thoughts replies report_reply max_iterations).iterations ≤ max_iterations ∧
    parse_action ReasonerReply.malformed =
      { type := AgentActionType.check_service_health, conclusion := none } ∧
    (investigate thoughts (fun _ => ReasonerReply.malformed) report_reply
        max_iterations).iterations = max_iterations ∧
    (investigate thoughts (fun _ => ReasonerReply.malformed) ReportReply.malformed
        max_iterations).reportConfidence = "low" ∧
    (investigate thoughts (fun _ => ReasonerReply.malformed) ReportReply.malformed
        max_iterations).reportRootCause = "Unable to determine definitively" := by
  refine ⟨?_, rfl, ?_, rfl, rfl⟩
  · have h := investigate_loop_le thoughts replies max_iterations 0 []
    simpa [investigate] using h
  · have h := investigate_loop_malformed thoughts max_iterations 0 []
    simpa [investigate] using h
